import Mathlib

/-!
Verification development for the TermDock session/transfer orchestration layer.

The definitions below are a shallow embedding of the TypeScript source:
`src/main/terminal/terminal-service.ts` (connection lifecycle, native-transport
fallback, SFTP path operations, transfer events, cancellation),
`src/main/main.ts` (client-side reconnect backoff) and the renderer upload
queue (`drainUploadQueue`, `closeTerminalTab`).

Modelling conventions:
- JavaScript strings are Lean `String`s; `String.prototype.trim`,
  `toLowerCase` and `includes` are modelled character-list-wise below.
- JavaScript numbers that the code truncates with `Math.trunc` are modelled
  as `Int` (the truncation of an integral value is the identity).
- `Date.now()` and `Math.random().toString(16).slice(2, 8)` are environment
  inputs and appear as explicit parameters (`nowMs`, `randomHex`).
- Mutable `Map`/`Set` registries become association lists / duplicate-free
  lists with explicit state passing.
-/

namespace TermDock

/-! ## String primitives modelling the JavaScript string operations -/

/-- Characters stripped by `String.prototype.trim` (the ASCII whitespace
subset; exotic Unicode space characters are not modelled). -/
def isJsWhitespace (c : Char) : Bool :=
  c = ' ' || c = '\t' || c = '\n' || c = '\r' || c = '\x0b' || c = '\x0c'

/-- Models `String.prototype.trim`. -/
def jsTrim (s : String) : String :=
  ⟨((s.data.dropWhile isJsWhitespace).reverse.dropWhile isJsWhitespace).reverse⟩

/-- Models `String.prototype.toLowerCase` (ASCII case folding). -/
def jsToLower (s : String) : String :=
  ⟨s.data.map Char.toLower⟩

/-- Containment of `p` as a contiguous sublist of a character list. -/
def charsInfixOf (p : List Char) : List Char → Bool
  | [] => p.isEmpty
  | c :: rest => p.isPrefixOf (c :: rest) || charsInfixOf p rest

/-- Models `s.includes(pat)` on JavaScript strings. -/
def strIncludes (s pat : String) : Bool :=
  charsInfixOf pat.data s.data

/-! ## Connection fallback policy (`terminal-service.ts`)

`Ssh2ConnState` carries the observable fields of an `Ssh2TerminalConnection`:
`registered` models `this.connections.get(tabId) === connection`, `closed` and
`fallbackTried` are the flags of the record, and `shellOpen` models
`connection.shell !== undefined` (it is set by the success path of the
`ready` handler's shell callback, so it witnesses that the ready event has
already been processed). -/

/-- Authentication kind of a stored session (`session.authType`). -/
inductive AuthType where
  | password
  | privateKey
deriving DecidableEq, Repr

/-- The fields of a `SessionRecord` consulted by the fallback decision. -/
structure SessionRecord where
  authType : AuthType
  privateKeyPath : Option String := none
deriving DecidableEq, Repr

/-- Observable state of an `Ssh2TerminalConnection`. -/
structure Ssh2ConnState where
  registered : Bool
  closed : Bool
  fallbackTried : Bool
  shellOpen : Bool
deriving DecidableEq, Repr

/-- The handshake-failure signature test of `shouldFallbackToNative`: the
regex `/before handshake|kex_exchange_identification|connection reset|closed by remote host/`
applied to the lowercased error message. -/
def matchesHandshakeFailureSignature (message : String) : Bool :=
  let m := jsToLower message
  strIncludes m "before handshake" || strIncludes m "kex_exchange_identification" ||
    strIncludes m "connection reset" || strIncludes m "closed by remote host"

/-- Models `TerminalService.shouldFallbackToNative`. -/
def shouldFallbackToNative (errorMessage : String) (session : SessionRecord)
    (connection : Ssh2ConnState) : Bool :=
  if connection.fallbackTried = true ∨ session.authType ≠ AuthType.privateKey then false
  else matchesHandshakeFailureSignature errorMessage

/-- The outcome of the `client.on("error")` handler for one error event. -/
inductive ErrorAction where
  | ignore
  | fallback
  | surfaceError
deriving DecidableEq, Repr

/-- Models the `client.on("error")` handler of `connectViaSsh2` together with
the state effect of `fallbackToNative` (which sets `fallbackTried` and
`closed` before tearing the ssh2 client down). -/
def onClientError (connection : Ssh2ConnState) (session : SessionRecord)
    (message : String) : ErrorAction × Ssh2ConnState :=
  if connection.registered = false ∨ connection.closed = true then
    (ErrorAction.ignore, connection)
  else if shouldFallbackToNative message session connection = true then
    (ErrorAction.fallback, { connection with fallbackTried := true, closed := true })
  else
    (ErrorAction.surfaceError, connection)

/-- Models the success path of the `client.on("ready")` handler: when the
connection is still registered and not closed, the shell is opened. -/
def onClientReady (connection : Ssh2ConnState) : Ssh2ConnState :=
  if connection.registered = false ∨ connection.closed = true then connection
  else { connection with shellOpen := true }

/-- Observable state of a `NativeTerminalConnection`. -/
structure NativeConnState where
  registered : Bool
  closed : Bool
deriving DecidableEq, Repr

/-- Terminal lifecycle events sent to the renderer. -/
inductive EmittedEvent where
  | statusConnecting
  | statusConnected
  | statusClosed
  | errorEvent (message : String)
deriving DecidableEq, Repr

/-- Models the `process.on("error")` handler of `connectViaNative`: if the
native connection is still registered, it emits the error, removes the
connection from the registry and emits `status=closed` through the
`closed`-guarded `emitClosed`. It has no fallback path. -/
def onNativeProcessError (connection : NativeConnState) (message : String) :
    List EmittedEvent × NativeConnState :=
  if connection.registered = false then ([], connection)
  else
    (EmittedEvent.errorEvent message ::
        (if connection.closed = true then [] else [EmittedEvent.statusClosed]),
      { connection with registered := false, closed := true })

/-- A freshly registered ssh2 connection for a private-key session. -/
def fallbackDemoConn : Ssh2ConnState :=
  { registered := true, closed := false, fallbackTried := false, shellOpen := false }

/-- A private-key session record. -/
def fallbackDemoSession : SessionRecord :=
  { authType := AuthType.privateKey }

/-- Claim C1, counterexample: the error handler does not check whether the
ready event has already happened. After `onClientReady` has processed the
ready event (the shell is open), an error whose message matches a
handshake-failure signature still triggers the native fallback, so fallback
is not restricted to errors that precede the ready event as the claim
states. -/
theorem C1_fallback_after_ready_counterexample :
    (onClientReady fallbackDemoConn).shellOpen = true ∧
      (onClientError (onClientReady fallbackDemoConn) fallbackDemoSession
          "Connection reset by peer").1 = ErrorAction.fallback := by
  constructor
  · decide
  · decide

/-- Claim C1, amended: for every connection, the native-transport fallback is
attempted exactly when the connection is still the registered one and not
closed, the error message matches a handshake-failure signature, the session
uses key-based auth, and fallback has not already been attempted (the code
does not additionally require that the error precede the ready event); it is
attempted at most once — after a fallback the connection is marked closed and
`fallbackTried`, so every later ssh2 error event is ignored, and a failure of
the native transport is surfaced as an error event followed by
`status=closed`, never a second fallback. -/
theorem C1_fallback_policy :
    (∀ (c : Ssh2ConnState) (s : SessionRecord) (m : String),
      (onClientError c s m).1 = ErrorAction.fallback ↔
        (c.registered = true ∧ c.closed = false ∧ c.fallbackTried = false ∧
          s.authType = AuthType.privateKey ∧ matchesHandshakeFailureSignature m = true)) ∧
    (∀ (c : Ssh2ConnState) (s : SessionRecord) (m : String),
      (onClientError c s m).1 = ErrorAction.fallback →
        ∀ (s' : SessionRecord) (m' : String),
          (onClientError (onClientError c s m).2 s' m').1 = ErrorAction.ignore) ∧
    (∀ (nc : NativeConnState) (m : String), nc.registered = true → nc.closed = false →
      (onNativeProcessError nc m).1 =
        [EmittedEvent.errorEvent m, EmittedEvent.statusClosed]) := by
  refine ⟨?_, ?_, ?_⟩
  · intro c s m
    unfold onClientError shouldFallbackToNative
    constructor
    · intro h
      by_cases hreg : c.registered = false ∨ c.closed = true
      · simp [hreg] at h
      · push_neg at hreg
        obtain ⟨hr, hc⟩ := hreg
        have hr' : c.registered = true := by simpa using hr
        have hc' : c.closed = false := by simpa using hc
        by_cases hft : c.fallbackTried = true ∨ s.authType ≠ AuthType.privateKey
        · simp [hft, hr', hc'] at h
        · push_neg at hft
          obtain ⟨hf, ha⟩ := hft
          have hf' : c.fallbackTried = false := by simpa using hf
          by_cases hm : matchesHandshakeFailureSignature m = true
          · exact ⟨hr', hc', hf', ha, hm⟩
          · simp [hf, ha, hm, hr', hc'] at h
    · rintro ⟨hr, hc, hf, ha, hm⟩
      simp [hr, hc, hf, ha, hm]
  · intro c s m h s' m'
    unfold onClientError at h ⊢
    by_cases hreg : c.registered = false ∨ c.closed = true
    · simp [hreg] at h
    · by_cases hsf : shouldFallbackToNative m s c = true
      · simp [hreg, hsf]
      · simp [hreg, hsf] at h
  · intro nc m hr hc
    simp [onNativeProcessError, hr, hc]

/-- Claim C1 witness: the amended policy instantiated at a concrete
registered, untried, private-key connection and a matching error message, and
at a concrete registered native connection. -/
theorem C1_fallback_policy_witness :
    (onClientError fallbackDemoConn fallbackDemoSession
        "kex_exchange_identification: Connection closed by remote host").1 =
      ErrorAction.fallback ∧
    (onNativeProcessError { registered := true, closed := false } "spawn ssh ENOENT").1 =
      [EmittedEvent.errorEvent "spawn ssh ENOENT", EmittedEvent.statusClosed] :=
  ⟨(C1_fallback_policy.1 fallbackDemoConn fallbackDemoSession _).mpr (by decide),
    C1_fallback_policy.2.2 { registered := true, closed := false } "spawn ssh ENOENT" rfl rfl⟩

/-! ## Transfer events (`createTransferEvent`)

Byte counters reach `createTransferEvent` as JavaScript numbers and are
truncated with `Math.trunc`; they are modelled as `Int` (truncation of an
integral value is the identity). The JavaScript expression
`safeTotalBytes || Math.trunc(payload.transferredBytes)` picks the truncated
transferred count exactly when `safeTotalBytes` is `0` (it is never
negative), which the embedding renders as an `if _ = 0` test. -/

/-- Direction of an SFTP transfer. -/
inductive SftpTransferDirection where
  | upload
  | download
deriving DecidableEq, Repr

/-- Status carried by an SFTP transfer event. -/
inductive SftpTransferStatus where
  | queued
  | running
  | completed
  | failed
  | canceled
deriving DecidableEq, Repr

/-- An `SftpTransferEvent` as sent to the renderer. -/
structure SftpTransferEvent where
  tabId : String
  transferId : String
  direction : SftpTransferDirection
  status : SftpTransferStatus
  name : String
  localPath : String
  remotePath : String
  transferredBytes : Int
  totalBytes : Int
  message : Option String := none
deriving DecidableEq, Repr

/-- The payload object handed to `createTransferEvent`. -/
structure TransferEventPayload where
  tabId : String
  transferId : String
  direction : SftpTransferDirection
  status : SftpTransferStatus
  name : String
  localPath : String
  remotePath : String
  transferredBytes : Int
  totalBytes : Int
  message : Option String := none
deriving DecidableEq, Repr

/-- Models `TerminalService.createTransferEvent`. -/
def createTransferEvent (payload : TransferEventPayload) : SftpTransferEvent :=
  let safeTotalBytes : Int := max 0 payload.totalBytes
  let safeTransferredBytes : Int :=
    max 0 (min payload.transferredBytes
      (if safeTotalBytes = 0 then payload.transferredBytes else safeTotalBytes))
  { tabId := payload.tabId
    transferId := payload.transferId
    direction := payload.direction
    status := payload.status
    name := payload.name
    localPath := payload.localPath
    remotePath := payload.remotePath
    transferredBytes := safeTransferredBytes
    totalBytes := safeTotalBytes
    message := payload.message }

/-- Claim C3: every event built by `createTransferEvent` has non-negative
byte counters, satisfies `transferredBytes ≤ totalBytes` whenever the emitted
`totalBytes` is positive, and a zero or negative (unknown) total is reported
as `totalBytes = 0`. -/
theorem C3_transfer_event_clamped (payload : TransferEventPayload) :
    (0 < (createTransferEvent payload).totalBytes →
      0 ≤ (createTransferEvent payload).transferredBytes ∧
        (createTransferEvent payload).transferredBytes ≤
          (createTransferEvent payload).totalBytes) ∧
    (payload.totalBytes ≤ 0 → (createTransferEvent payload).totalBytes = 0) ∧
    0 ≤ (createTransferEvent payload).transferredBytes ∧
    0 ≤ (createTransferEvent payload).totalBytes := by
  simp only [createTransferEvent]
  constructor
  · intro hpos
    constructor
    · exact le_max_left 0 _
    · rcases max_cases (0 : Int) payload.totalBytes with ⟨hmax, _⟩ | ⟨hmax, _⟩
      · rw [hmax] at hpos
        omega
      · rw [hmax] at hpos ⊢
        have hne : payload.totalBytes ≠ 0 := by omega
        rw [if_neg hne]
        rcases max_cases (0 : Int)
            (min payload.transferredBytes payload.totalBytes) with ⟨h1, _⟩ | ⟨h1, _⟩ <;>
          rcases min_cases payload.transferredBytes payload.totalBytes with
            ⟨h2, _⟩ | ⟨h2, _⟩ <;> omega
  · constructor
    · intro hle
      rcases max_cases (0 : Int) payload.totalBytes with ⟨h1, _⟩ | ⟨h1, h2⟩ <;> omega
    · exact ⟨le_max_left 0 _, le_max_left 0 _⟩

/-- Claim C3 witness: the clamping theorem applied to a concrete running
upload event whose transferred counter overshoots the positive total. -/
theorem C3_transfer_event_clamped_witness :
    0 < (createTransferEvent
        { tabId := "tab-1", transferId := "up-1", direction := SftpTransferDirection.upload,
          status := SftpTransferStatus.running, name := "a.bin", localPath := "/tmp/a.bin",
          remotePath := "/srv/a.bin", transferredBytes := 700, totalBytes := 512 }).totalBytes ∧
    (createTransferEvent
        { tabId := "tab-1", transferId := "up-1", direction := SftpTransferDirection.upload,
          status := SftpTransferStatus.running, name := "a.bin", localPath := "/tmp/a.bin",
          remotePath := "/srv/a.bin", transferredBytes := 700, totalBytes := 512 }).transferredBytes ≤
      (createTransferEvent
        { tabId := "tab-1", transferId := "up-1", direction := SftpTransferDirection.upload,
          status := SftpTransferStatus.running, name := "a.bin", localPath := "/tmp/a.bin",
          remotePath := "/srv/a.bin", transferredBytes := 700, totalBytes := 512 }).totalBytes :=
  ⟨by decide,
    ((C3_transfer_event_clamped
      { tabId := "tab-1", transferId := "up-1", direction := SftpTransferDirection.upload,
        status := SftpTransferStatus.running, name := "a.bin", localPath := "/tmp/a.bin",
        remotePath := "/srv/a.bin", transferredBytes := 700, totalBytes := 512 }).1
      (by decide)).2⟩

/-! ## Reconnect backoff (`scheduleReconnect` / `clearReconnectState`)

The renderer keeps a per-tab attempt counter (`reconnectAttemptsRef`, absent
entries read as `0`) and a per-tab pending-timer flag
(`reconnectTimersRef.has(tabId)`). `Math.trunc(reconnectDelaySeconds)` is
modelled by taking the preference as an `Int`. -/

/-- The connection-preference record of the renderer. -/
structure ConnectionPreferences where
  autoReconnect : Bool
  reconnectDelaySeconds : Int
deriving DecidableEq, Repr

/-- Models `DEFAULT_CONNECTION_PREFERENCES`. -/
def DEFAULT_CONNECTION_PREFERENCES : ConnectionPreferences :=
  { autoReconnect := true, reconnectDelaySeconds := 3 }

/-- The clamped base delay `Math.min(60, Math.max(1, Math.trunc(pref)))`. -/
def baseDelaySeconds (reconnectDelaySeconds : Int) : Int :=
  min 60 (max 1 reconnectDelaySeconds)

/-- The delay scheduled for attempt number `nextAttempt` (1-based):
`Math.min(60, baseDelaySeconds * 2 ** Math.min(nextAttempt - 1, 5))`. -/
def reconnectDelayForAttempt (reconnectDelaySeconds : Int) (nextAttempt : Nat) : Int :=
  min 60 (baseDelaySeconds reconnectDelaySeconds * 2 ^ (min (nextAttempt - 1) 5))

/-- Modelled from the spec sentence "Delay starts at a configurable base
(default 3s), doubles per attempt, capped at 60s": the formula
`delay(n) = min(60, base * 2 ^ (n - 1))` claimed by the specification, stated
only so that it can be compared with the code's formula. -/
def specReconnectDelayForAttempt (reconnectDelaySeconds : Int) (n : Nat) : Int :=
  min 60 (baseDelaySeconds reconnectDelaySeconds * 2 ^ (n - 1))

/-- Per-tab reconnect bookkeeping: the attempt counter and whether a timer is
pending for the tab. -/
structure ReconnectState where
  attempts : Nat
  timerPending : Bool
deriving DecidableEq, Repr

/-- Models `scheduleReconnect` for one tab: an early return (no state change,
no timer) when auto-reconnect is off or a timer is already pending; otherwise
the attempt counter is incremented and a timer with the computed delay is
scheduled. -/
def scheduleReconnect (prefs : ConnectionPreferences) (st : ReconnectState) :
    ReconnectState × Option Int :=
  if prefs.autoReconnect = false then (st, none)
  else if st.timerPending = true then (st, none)
  else
    ({ attempts := st.attempts + 1, timerPending := true },
      some (reconnectDelayForAttempt prefs.reconnectDelaySeconds (st.attempts + 1)))

/-- Models `clearReconnectState`, which runs the moment a connection attempt
succeeds: the attempt counter entry is deleted (reads as zero) and any
pending timer is cleared. -/
def clearReconnectState (_st : ReconnectState) : ReconnectState :=
  { attempts := 0, timerPending := false }

/-- Claim C6, counterexample: with the configured base clamped to 1 second,
the seventh attempt is scheduled after `min(60, 1 * 2 ^ min(6, 5)) = 32`
seconds, while the claimed formula `min(60, base * 2 ^ (n - 1))` yields 60
seconds — the code additionally caps the doubling exponent at 5. -/
theorem C6_reconnect_delay_counterexample :
    reconnectDelayForAttempt 1 7 = 32 ∧ specReconnectDelayForAttempt 1 7 = 60 ∧
      reconnectDelayForAttempt 1 7 ≠ specReconnectDelayForAttempt 1 7 := by
  refine ⟨by decide, by decide, by decide⟩

/-- Claim C6, amended: for every tab and attempt number n ≥ 1, the scheduled
delay is `min(60, base * 2 ^ min(n - 1, 5))` seconds where `base` is the
configured preference (default 3) clamped to [1, 60] — the delay doubles per
attempt only until the exponent reaches 5 and is additionally capped at 60 —
and the attempt counter resets to zero the moment a connection succeeds, so
the delay scheduled after a success is the base again. -/
theorem C6_reconnect_delay_formula :
    (∀ (prefs : ConnectionPreferences) (st : ReconnectState),
      prefs.autoReconnect = true → st.timerPending = false →
        scheduleReconnect prefs st =
          ({ attempts := st.attempts + 1, timerPending := true },
            some (min 60 (baseDelaySeconds prefs.reconnectDelaySeconds *
              2 ^ (min st.attempts 5))))) ∧
    (∀ d : Int, 1 ≤ baseDelaySeconds d ∧ baseDelaySeconds d ≤ 60) ∧
    (∀ (prefs : ConnectionPreferences) (st : ReconnectState),
      prefs.autoReconnect = true →
        (scheduleReconnect prefs (clearReconnectState st)).2 =
          some (baseDelaySeconds prefs.reconnectDelaySeconds)) ∧
    DEFAULT_CONNECTION_PREFERENCES.reconnectDelaySeconds = 3 := by
  have hbase : ∀ d : Int, 1 ≤ baseDelaySeconds d ∧ baseDelaySeconds d ≤ 60 := by
    intro d
    unfold baseDelaySeconds
    constructor
    · rcases min_cases (60 : Int) (max 1 d) with ⟨h1, _⟩ | ⟨h1, h2⟩ <;>
        rcases max_cases (1 : Int) d with ⟨h3, _⟩ | ⟨h3, _⟩ <;> omega
    · exact min_le_left _ _
  refine ⟨?_, hbase, ?_, rfl⟩
  · intro prefs st hauto hpending
    simp [scheduleReconnect, hauto, hpending, reconnectDelayForAttempt]
  · intro prefs st hauto
    simp only [scheduleReconnect, clearReconnectState, hauto]
    simp only [Bool.true_eq_false, if_false, Bool.false_eq_true]
    simp only [reconnectDelayForAttempt]
    have : min (0 + 1 - 1) 5 = 0 := by omega
    rw [this]
    rw [pow_zero, mul_one]
    exact congrArg some (min_eq_right (hbase prefs.reconnectDelaySeconds).2)

/-- Claim C6 witness: the amended schedule applied to the default
preferences and a fresh tab — the first attempt is scheduled after the base
delay of 3 seconds. -/
theorem C6_reconnect_delay_formula_witness :
    scheduleReconnect DEFAULT_CONNECTION_PREFERENCES { attempts := 0, timerPending := false } =
      ({ attempts := 1, timerPending := true }, some 3) := by
  have h := C6_reconnect_delay_formula.1 DEFAULT_CONNECTION_PREFERENCES
    { attempts := 0, timerPending := false } rfl rfl
  rw [h]
  decide

/-! ## Renderer upload queue (`drainUploadQueue`, `closeTerminalTab`)

`uploadQueueRef` is an array of pending jobs, `runningUploadIds` a `Set` of
transferIds and `connectedTabIds` a `Set` of tabIds; the sets become
duplicate-free lists with `setAdd`/`setDelete`. The `while` loop of
`drainUploadQueue` removes one queue element per iteration, so it is modelled
with the queue length as fuel. -/

/-- A `PendingUploadJob` of the renderer upload queue. -/
structure PendingUploadJob where
  tabId : String
  transferId : String
  localPath : String
  remoteDirectory : String
  remotePath : String
  name : String
deriving DecidableEq, Repr

/-- The global upload concurrency cap. -/
def UPLOAD_MAX_CONCURRENCY : Nat := 2

/-- The renderer state touched by the upload queue machinery. -/
structure UploadQueueState where
  uploadQueue : List PendingUploadJob
  runningUploadIds : List String
  connectedTabIds : List String
deriving DecidableEq, Repr

/-- Models `Set.prototype.add` on a duplicate-free list. -/
def setAdd (s : List String) (x : String) : List String :=
  if x ∈ s then s else s ++ [x]

/-- Models `Set.prototype.delete` on a duplicate-free list. -/
def setDelete (s : List String) (x : String) : List String :=
  s.filter (fun y => y != x)

/-- Models `uploadQueueRef.current.findIndex(job => connected.has(job.tabId))`
followed by `splice(nextIndex, 1)`: the first job of a connected tab together
with the queue with that job removed. -/
def findFirstConnected (connectedTabIds : List String) :
    List PendingUploadJob → Option (PendingUploadJob × List PendingUploadJob)
  | [] => none
  | job :: rest =>
    if job.tabId ∈ connectedTabIds then some (job, rest)
    else
      match findFirstConnected connectedTabIds rest with
      | none => none
      | some (hit, rest') => some (hit, job :: rest')

/-- One pass of the `while` loop of `drainUploadQueue`, with fuel: while the
running set is below the cap and a job of a connected tab is queued, that job
is moved from the queue into the running set. -/
def drainLoop : Nat → UploadQueueState → UploadQueueState
  | 0, s => s
  | fuel + 1, s =>
    if s.runningUploadIds.length < UPLOAD_MAX_CONCURRENCY then
      match findFirstConnected s.connectedTabIds s.uploadQueue with
      | none => s
      | some (job, rest) =>
        drainLoop fuel
          { s with uploadQueue := rest,
                   runningUploadIds := setAdd s.runningUploadIds job.transferId }
    else s

/-- Models `drainUploadQueue`: the loop removes at least one queued job per
iteration, so the queue length bounds the number of iterations. -/
def drainUploadQueue (s : UploadQueueState) : UploadQueueState :=
  drainLoop s.uploadQueue.length s

/-- Models `uploadLocalPathsToSftp`'s final step: the new jobs are pushed
onto the queue and the queue is drained. -/
def enqueueUploadJobs (s : UploadQueueState) (jobs : List PendingUploadJob) :
    UploadQueueState :=
  drainUploadQueue { s with uploadQueue := s.uploadQueue ++ jobs }

/-- Models the `.finally` of a started upload: the job leaves the running
set (a terminal state was reached) and the queue is drained again. -/
def uploadSettled (s : UploadQueueState) (transferId : String) : UploadQueueState :=
  drainUploadQueue { s with runningUploadIds := setDelete s.runningUploadIds transferId }

/-- Models the `status=connected` branch of the terminal event handler: the
tab joins the connected set and the queue is drained. -/
def tabConnected (s : UploadQueueState) (tabId : String) : UploadQueueState :=
  drainUploadQueue { s with connectedTabIds := setAdd s.connectedTabIds tabId }

lemma setAdd_length_le (s : List String) (x : String) :
    (setAdd s x).length ≤ s.length + 1 := by
  unfold setAdd
  split
  · omega
  · simp

lemma setDelete_length_le (s : List String) (x : String) :
    (setDelete s x).length ≤ s.length :=
  List.length_filter_le _ s

lemma drainLoop_length_le (fuel : Nat) :
    ∀ s : UploadQueueState, s.runningUploadIds.length ≤ UPLOAD_MAX_CONCURRENCY →
      (drainLoop fuel s).runningUploadIds.length ≤ UPLOAD_MAX_CONCURRENCY := by
  induction fuel with
  | zero => intro s h; exact h
  | succ n ih =>
    intro s h
    unfold drainLoop
    split
    · rename_i hlt
      rcases hfind : findFirstConnected s.connectedTabIds s.uploadQueue with _ | ⟨job, rest⟩
      · simpa [hfind] using h
      · simp only [hfind]
        apply ih
        have := setAdd_length_le s.runningUploadIds job.transferId
        simp only
        omega
    · exact h

lemma drainLoop_cap_stop (fuel : Nat) (s : UploadQueueState)
    (h : ¬ s.runningUploadIds.length < UPLOAD_MAX_CONCURRENCY) :
    drainLoop fuel s = s := by
  cases fuel with
  | zero => rfl
  | succ n => simp [drainLoop, h]

lemma findFirstConnected_spec (connectedTabIds : List String) :
    ∀ (q : List PendingUploadJob) (job : PendingUploadJob) (rest : List PendingUploadJob),
      findFirstConnected connectedTabIds q = some (job, rest) →
        job ∈ q ∧ job.tabId ∈ connectedTabIds ∧ ∀ x ∈ rest, x ∈ q := by
  intro q
  induction q with
  | nil => intro job rest h; simp [findFirstConnected] at h
  | cons head tail ih =>
    intro job rest h
    unfold findFirstConnected at h
    split at h
    · rename_i hmem
      simp only [Option.some.injEq, Prod.mk.injEq] at h
      obtain ⟨rfl, rfl⟩ := h
      exact ⟨List.mem_cons_self _ _, hmem, fun x hx => List.mem_cons_of_mem _ hx⟩
    · rename_i hmem
      split at h
      · exact absurd h (by simp)
      · rename_i hit rest' hrec
        simp only [Option.some.injEq, Prod.mk.injEq] at h
        obtain ⟨rfl, hrest⟩ := h
        obtain ⟨hmemq, hconn, hsub⟩ := ih hit rest' hrec
        refine ⟨List.mem_cons_of_mem _ hmemq, hconn, ?_⟩
        intro x hx
        rw [← hrest] at hx
        rcases List.mem_cons.mp hx with rfl | hx'
        · exact List.mem_cons_self _ _
        · exact List.mem_cons_of_mem _ (hsub x hx')

lemma drainLoop_connected_eq (fuel : Nat) :
    ∀ s : UploadQueueState, (drainLoop fuel s).connectedTabIds = s.connectedTabIds := by
  induction fuel with
  | zero => intro s; rfl
  | succ n ih =>
    intro s
    unfold drainLoop
    split
    · rcases hfind : findFirstConnected s.connectedTabIds s.uploadQueue with _ | ⟨job, rest⟩
      · simp [hfind]
      · simp only [hfind]
        exact ih _
    · rfl

lemma drainLoop_queue_subset (fuel : Nat) :
    ∀ (s : UploadQueueState) (job : PendingUploadJob),
      job ∈ (drainLoop fuel s).uploadQueue → job ∈ s.uploadQueue := by
  induction fuel with
  | zero => intro s job h; exact h
  | succ n ih =>
    intro s job h
    unfold drainLoop at h
    split at h
    · rcases hfind : findFirstConnected s.connectedTabIds s.uploadQueue with _ | ⟨hit, rest⟩
      · rw [hfind] at h; exact h
      · rw [hfind] at h
        have := ih _ job h
        exact (findFirstConnected_spec _ _ _ _ hfind).2.2 job this
    · exact h

lemma setAdd_mem (s : List String) (x y : String) :
    y ∈ setAdd s x → y ∈ s ∨ y = x := by
  unfold setAdd
  split
  · exact fun h => Or.inl h
  · intro h
    rcases List.mem_append.mp h with h' | h'
    · exact Or.inl h'
    · exact Or.inr (List.mem_singleton.mp h')

lemma drainLoop_running_src (fuel : Nat) :
    ∀ (s : UploadQueueState) (transferId : String),
      transferId ∈ (drainLoop fuel s).runningUploadIds →
        transferId ∈ s.runningUploadIds ∨
          ∃ job, job ∈ s.uploadQueue ∧ job.transferId = transferId ∧
            job.tabId ∈ s.connectedTabIds := by
  induction fuel with
  | zero => intro s tid h; exact Or.inl h
  | succ n ih =>
    intro s tid h
    unfold drainLoop at h
    split at h
    · rcases hfind : findFirstConnected s.connectedTabIds s.uploadQueue with _ | ⟨job, rest⟩
      · rw [hfind] at h; exact Or.inl h
      · rw [hfind] at h
        obtain ⟨hjobq, hjobconn, hsub⟩ := findFirstConnected_spec _ _ _ _ hfind
        rcases ih _ tid h with hrun | ⟨job', hq', hid', hconn'⟩
        · rcases setAdd_mem _ _ _ hrun with hold | rfl
          · exact Or.inl hold
          · exact Or.inr ⟨job, hjobq, rfl, hjobconn⟩
        · exact Or.inr ⟨job', hsub job' hq', hid', hconn'⟩
    · exact Or.inl h

/-- Claim C2: the running upload set never exceeds the global concurrency cap
of 2 — draining preserves the cap, a drain started with the cap reached
starts nothing (so a queued job transitions to running only while the running
count is below the cap), and every queue operation (enqueue, a job reaching a
terminal state, a tab connecting) preserves the cap. -/
theorem C2_upload_concurrency_cap :
    (∀ s : UploadQueueState, s.runningUploadIds.length ≤ UPLOAD_MAX_CONCURRENCY →
      (drainUploadQueue s).runningUploadIds.length ≤ UPLOAD_MAX_CONCURRENCY) ∧
    (∀ s : UploadQueueState, s.runningUploadIds.length = UPLOAD_MAX_CONCURRENCY →
      drainUploadQueue s = s) ∧
    (∀ (s : UploadQueueState) (jobs : List PendingUploadJob),
      s.runningUploadIds.length ≤ UPLOAD_MAX_CONCURRENCY →
        (enqueueUploadJobs s jobs).runningUploadIds.length ≤ UPLOAD_MAX_CONCURRENCY) ∧
    (∀ (s : UploadQueueState) (transferId : String),
      s.runningUploadIds.length ≤ UPLOAD_MAX_CONCURRENCY →
        (uploadSettled s transferId).runningUploadIds.length ≤ UPLOAD_MAX_CONCURRENCY) ∧
    (∀ (s : UploadQueueState) (tabId : String),
      s.runningUploadIds.length ≤ UPLOAD_MAX_CONCURRENCY →
        (tabConnected s tabId).runningUploadIds.length ≤ UPLOAD_MAX_CONCURRENCY) := by
  refine ⟨?_, ?_, ?_, ?_, ?_⟩
  · intro s h
    exact drainLoop_length_le _ s h
  · intro s h
    exact drainLoop_cap_stop _ s (by omega)
  · intro s jobs h
    exact drainLoop_length_le _ _ h
  · intro s tid h
    refine drainLoop_length_le _ _ ?_
    have := setDelete_length_le s.runningUploadIds tid
    simp only
    omega
  · intro s tab h
    exact drainLoop_length_le _ _ h

/-- Claim C2 witness: three jobs queued for a connected tab with nothing
running — after the drain at most two are running. -/
theorem C2_upload_concurrency_cap_witness :
    (enqueueUploadJobs
        { uploadQueue := [], runningUploadIds := [], connectedTabIds := ["tab-1"] }
        [{ tabId := "tab-1", transferId := "up-a", localPath := "/l/a",
           remoteDirectory := "/r", remotePath := "/r/a", name := "a" },
         { tabId := "tab-1", transferId := "up-b", localPath := "/l/b",
           remoteDirectory := "/r", remotePath := "/r/b", name := "b" },
         { tabId := "tab-1", transferId := "up-c", localPath := "/l/c",
           remoteDirectory := "/r", remotePath := "/r/c", name := "c" }]).runningUploadIds.length ≤
      UPLOAD_MAX_CONCURRENCY :=
  C2_upload_concurrency_cap.2.2.1
    { uploadQueue := [], runningUploadIds := [], connectedTabIds := ["tab-1"] }
    _ (by decide)

/-! ## Tab close and queued-upload cancellation (`closeTerminalTab`) -/

/-- The renderer state touched by `closeTerminalTab`: the upload queue state
plus the transfer list updated through `applySftpTransferEvent` (only the
appended events matter here, so the list of applied events is recorded). -/
structure RendererSftpState where
  upload : UploadQueueState
  transferEvents : List SftpTransferEvent
deriving DecidableEq, Repr

/-- The terminal `canceled` event issued for a queued job whose tab closed. -/
def canceledUploadEvent (job : PendingUploadJob) : SftpTransferEvent :=
  { tabId := job.tabId
    transferId := job.transferId
    direction := SftpTransferDirection.upload
    status := SftpTransferStatus.canceled
    name := job.name
    localPath := job.localPath
    remotePath := job.remotePath
    transferredBytes := 0
    totalBytes := 0
    message := some "canceled" }

/-- Models `closeTerminalTab`'s upload-queue part: the tab leaves the
connected set; when jobs for the tab are queued they are removed from the
queue, each receives a terminal `canceled` transfer event, and the queue is
drained. -/
def closeTerminalTab (s : RendererSftpState) (tabId : String) : RendererSftpState :=
  let connectedTabIds := setDelete s.upload.connectedTabIds tabId
  let queuedJobs := s.upload.uploadQueue.filter (fun job => job.tabId == tabId)
  if 0 < queuedJobs.length then
    let pruned : UploadQueueState :=
      { uploadQueue := s.upload.uploadQueue.filter (fun job => job.tabId != tabId)
        runningUploadIds := s.upload.runningUploadIds
        connectedTabIds := connectedTabIds }
    { upload := drainUploadQueue pruned
      transferEvents := s.transferEvents ++ queuedJobs.map canceledUploadEvent }
  else
    { s with upload := { s.upload with connectedTabIds := connectedTabIds } }

lemma setDelete_not_mem (s : List String) (x : String) : x ∉ setDelete s x := by
  unfold setDelete
  intro h
  have := List.of_mem_filter h
  simp at this

/-- Claim C7: when a tab disconnects via `closeTerminalTab`, no job for that
tab remains queued; the queued jobs for the tab each receive a terminal
`canceled` transfer event (they are not silently dropped); the tab leaves the
connected set; and a drain performed while a tab is not connected never moves
one of that tab's jobs into the running set, so the canceled jobs never later
transition to running. -/
theorem C7_disconnect_cancels_queued :
    (∀ (s : RendererSftpState) (tabId : String) (job : PendingUploadJob),
      job ∈ (closeTerminalTab s tabId).upload.uploadQueue → job.tabId ≠ tabId) ∧
    (∀ (s : RendererSftpState) (tabId : String),
      (closeTerminalTab s tabId).transferEvents =
        s.transferEvents ++
          (s.upload.uploadQueue.filter (fun job => job.tabId == tabId)).map
            canceledUploadEvent) ∧
    (∀ (s : RendererSftpState) (tabId : String),
      tabId ∉ (closeTerminalTab s tabId).upload.connectedTabIds) ∧
    (∀ (q : UploadQueueState) (tabId transferId : String),
      tabId ∉ q.connectedTabIds →
        transferId ∈ (drainUploadQueue q).runningUploadIds →
          transferId ∈ q.runningUploadIds ∨
            ∃ job, job ∈ q.uploadQueue ∧ job.transferId = transferId ∧ job.tabId ≠ tabId) := by
  refine ⟨?_, ?_, ?_, ?_⟩
  · intro s tabId job hmem
    unfold closeTerminalTab at hmem
    simp only at hmem
    split at hmem
    · rename_i hpos
      have hmem' := drainLoop_queue_subset _ _ job hmem
      have := List.of_mem_filter hmem'
      simpa using this
    · rename_i hpos
      have hzero : (s.upload.uploadQueue.filter (fun job => job.tabId == tabId)).length = 0 := by
        omega
      have hnil := List.length_eq_zero.mp hzero
      intro heq
      have : job ∈ s.upload.uploadQueue.filter (fun job => job.tabId == tabId) := by
        apply List.mem_filter.mpr
        exact ⟨hmem, by simp [heq]⟩
      rw [hnil] at this
      exact absurd this (List.not_mem_nil job)
  · intro s tabId
    unfold closeTerminalTab
    simp only
    split
    · rfl
    · rename_i hpos
      have hzero : (s.upload.uploadQueue.filter (fun job => job.tabId == tabId)).length = 0 := by
        omega
      have hnil := List.length_eq_zero.mp hzero
      rw [hnil]
      simp
  · intro s tabId
    unfold closeTerminalTab
    simp only
    split
    · intro hmem
      simp only [drainUploadQueue] at hmem
      rw [drainLoop_connected_eq] at hmem
      exact setDelete_not_mem _ _ hmem
    · intro hmem
      exact setDelete_not_mem _ _ hmem
  · intro q tabId transferId hconn hmem
    rcases drainLoop_running_src _ _ _ hmem with hrun | ⟨job, hq, hid, hjconn⟩
    · exact Or.inl hrun
    · refine Or.inr ⟨job, hq, hid, ?_⟩
      intro heq
      rw [heq] at hjconn
      exact hconn hjconn

/-- Claim C7 witness: closing a tab with one queued job removes the job from
the queue and issues its terminal `canceled` event. -/
theorem C7_disconnect_cancels_queued_witness :
    (closeTerminalTab
        { upload :=
            { uploadQueue := [{ tabId := "tab-1", transferId := "up-a", localPath := "/l/a",
                                remoteDirectory := "/r", remotePath := "/r/a", name := "a" }],
              runningUploadIds := [], connectedTabIds := ["tab-1"] },
          transferEvents := [] } "tab-1").transferEvents =
      [canceledUploadEvent
        { tabId := "tab-1", transferId := "up-a", localPath := "/l/a",
          remoteDirectory := "/r", remotePath := "/r/a", name := "a" }] := by
  have h := C7_disconnect_cancels_queued.2.1
    { upload :=
        { uploadQueue := [{ tabId := "tab-1", transferId := "up-a", localPath := "/l/a",
                            remoteDirectory := "/r", remotePath := "/r/a", name := "a" }],
          runningUploadIds := [], connectedTabIds := ["tab-1"] },
      transferEvents := [] } "tab-1"
  rw [h]
  decide

/-! ## Close lifecycle (`close` / `emitClosed` / the transport close handler)

Connection records are mutable objects shared between the `connections` map
and the event-handler closures; the heap of connection objects is modelled as
a list keyed by an object identity `connId`, and the `connections` map as an
association list from tabId to `connId`. `closedEvents` records every
`status=closed` emission (tabId and the emitting connection's identity). -/

/-- The heap view of one connection object: its identity, its tab and its
`closed` guard flag. -/
structure ConnObject where
  connId : Nat
  tabId : String
  closed : Bool
deriving DecidableEq, Repr

/-- The service state relevant to close semantics. -/
structure CloseServiceState where
  conns : List ConnObject
  registry : List (String × Nat)
  closedEvents : List (String × Nat)
deriving DecidableEq, Repr

/-- Models `this.connections.get(tabId)` (up to object identity). -/
def regLookup (registry : List (String × Nat)) (tabId : String) : Option Nat :=
  (registry.find? (fun entry => entry.1 == tabId)).map (fun entry => entry.2)

/-- Models `this.connections.delete(tabId)`. -/
def regErase (registry : List (String × Nat)) (tabId : String) : List (String × Nat) :=
  registry.filter (fun entry => entry.1 != tabId)

/-- Dereferences a connection object by identity. -/
def getConn (conns : List ConnObject) (connId : Nat) : Option ConnObject :=
  conns.find? (fun c => c.connId == connId)

/-- Sets the `closed` flag of the object with the given identity. -/
def markClosed (conns : List ConnObject) (connId : Nat) : List ConnObject :=
  conns.map (fun c => if c.connId == connId then { c with closed := true } else c)

/-- Models `TerminalService.emitClosed`: a no-op when the connection's
`closed` guard flag is already set; otherwise it sets the flag and emits one
`status=closed` event. -/
def emitClosed (state : CloseServiceState) (connId : Nat) : CloseServiceState :=
  match getConn state.conns connId with
  | none => state
  | some c =>
    if c.closed then state
    else
      { state with conns := markClosed state.conns connId
                   closedEvents := state.closedEvents ++ [(c.tabId, connId)] }

/-- Models `TerminalService.close(tabId)`: a no-op when no connection is
registered for the tab; otherwise the connection is removed from the registry,
its channels are ended (no observable state here) and `emitClosed` runs. -/
def closeTab (state : CloseServiceState) (tabId : String) : CloseServiceState :=
  match regLookup state.registry tabId with
  | none => state
  | some connId => emitClosed { state with registry := regErase state.registry tabId } connId

/-- Models the ssh2 `client.on("close")` handler of connection `connId`: it
returns early unless the registry still maps the connection's tab to this
very connection; otherwise it emits through `emitClosed` and removes the
registry entry. -/
def onTransportClose (state : CloseServiceState) (connId : Nat) : CloseServiceState :=
  match getConn state.conns connId with
  | none => state
  | some c =>
    if regLookup state.registry c.tabId = some connId then
      let s1 := emitClosed state connId
      { s1 with registry := regErase s1.registry c.tabId }
    else state

lemma regLookup_regErase_self (registry : List (String × Nat)) (tabId : String) :
    regLookup (regErase registry tabId) tabId = none := by
  induction registry with
  | nil => rfl
  | cons head tail ih =>
    unfold regErase at ih ⊢
    unfold regLookup at ih ⊢
    by_cases h : head.1 = tabId
    · simp only [List.filter_cons, h, bne_self_eq_false, Bool.false_eq_true, if_false]
      exact ih
    · have hb : (head.1 != tabId) = true := bne_iff_ne.mpr h
      simp only [List.filter_cons, hb, if_true, List.find?_cons]
      have hbeq : (head.1 == tabId) = false := beq_eq_false_iff_ne.mpr h
      simp only [hbeq]
      exact ih

lemma emitClosed_registry (state : CloseServiceState) (connId : Nat) :
    (emitClosed state connId).registry = state.registry := by
  unfold emitClosed
  rcases getConn state.conns connId with _ | c
  · rfl
  · by_cases h : c.closed <;> simp [h]

lemma getConn_markClosed_tabId (i j : Nat) :
    ∀ (conns : List ConnObject) (c' : ConnObject),
      getConn (markClosed conns i) j = some c' →
        ∃ c, getConn conns j = some c ∧ c'.tabId = c.tabId := by
  intro conns
  induction conns with
  | nil => intro c' h; simp [markClosed, getConn] at h
  | cons head tail ih =>
    intro c' h
    have hconnId :
        (if (head.connId == i) = true then { head with closed := true } else head).connId =
          head.connId := by
      split <;> rfl
    have htabId :
        (if (head.connId == i) = true then { head with closed := true } else head).tabId =
          head.tabId := by
      split <;> rfl
    unfold markClosed at h ih
    unfold getConn at h ih ⊢
    simp only [List.map_cons] at h
    by_cases hj : (head.connId == j) = true
    · rw [List.find?_cons_of_pos _ (by rw [hconnId]; exact hj)] at h
      have hc' : (if (head.connId == i) = true then { head with closed := true } else head) =
          c' := by
        injection h
      refine ⟨head, List.find?_cons_of_pos _ hj, ?_⟩
      rw [← hc', htabId]
    · rw [List.find?_cons_of_neg _ (by rw [hconnId]; exact hj)] at h
      obtain ⟨c, hc, ht⟩ := ih c' h
      refine ⟨c, ?_, ht⟩
      have hstep : List.find? (fun c => c.connId == j) (head :: tail) =
          List.find? (fun c => c.connId == j) tail := by
        simp [List.find?_cons, hj]
      rw [hstep]
      exact hc

/-- Claim C4: `close(tabId)` is idempotent; for a registered connection whose
guard flag is clear, one `status=closed` event is emitted for that connection
and the guard (`emitClosed` on an already-closed connection) emits nothing;
and a later transport close event for the connection of an already-closed tab
performs no further change (in particular no second emission). -/
theorem C4_close_idempotent_single_emission :
    (∀ (state : CloseServiceState) (tabId : String),
      closeTab (closeTab state tabId) tabId = closeTab state tabId) ∧
    (∀ (state : CloseServiceState) (tabId : String) (connId : Nat) (c : ConnObject),
      regLookup state.registry tabId = some connId →
        getConn state.conns connId = some c → c.closed = false →
          (closeTab state tabId).closedEvents = state.closedEvents ++ [(c.tabId, connId)]) ∧
    (∀ (state : CloseServiceState) (connId : Nat) (c : ConnObject),
      getConn state.conns connId = some c → c.closed = true →
        emitClosed state connId = state) ∧
    (∀ (state : CloseServiceState) (tabId : String) (connId : Nat) (c : ConnObject),
      regLookup state.registry tabId = some connId →
        getConn state.conns connId = some c → c.tabId = tabId →
          onTransportClose (closeTab state tabId) connId = closeTab state tabId) := by
  have hclosed_guard : ∀ (state : CloseServiceState) (connId : Nat) (c : ConnObject),
      getConn state.conns connId = some c → c.closed = true →
        emitClosed state connId = state := by
    intro state connId c hget hc
    unfold emitClosed
    rw [hget]
    simp [hc]
  have hreg_after : ∀ (state : CloseServiceState) (tabId : String),
      regLookup (closeTab state tabId).registry tabId = none ∨ closeTab state tabId = state := by
    intro state tabId
    unfold closeTab
    rcases hreg : regLookup state.registry tabId with _ | connId
    · exact Or.inr rfl
    · left
      rw [emitClosed_registry]
      exact regLookup_regErase_self _ _
  have hemit_conns : ∀ (state : CloseServiceState) (cid connId : Nat) (c' : ConnObject),
      getConn (emitClosed state cid).conns connId = some c' →
        ∃ c, getConn state.conns connId = some c ∧ c'.tabId = c.tabId := by
    intro state cid connId c' h
    rcases hg2 : getConn state.conns cid with _ | c2
    · have hred : emitClosed state cid = state := by
        unfold emitClosed
        simp only [hg2]
      rw [hred] at h
      exact ⟨c', h, rfl⟩
    · by_cases hc2 : c2.closed = true
      · have hred : emitClosed state cid = state := by
          unfold emitClosed
          simp only [hg2]
          rw [if_pos hc2]
        rw [hred] at h
        exact ⟨c', h, rfl⟩
      · have hred : (emitClosed state cid).conns = markClosed state.conns cid := by
          unfold emitClosed
          simp only [hg2]
          rw [if_neg hc2]
        rw [hred] at h
        exact getConn_markClosed_tabId cid connId state.conns c' h
  have hconns_after : ∀ (state : CloseServiceState) (tabId : String) (connId : Nat)
      (c' : ConnObject), getConn (closeTab state tabId).conns connId = some c' →
        ∃ c, getConn state.conns connId = some c ∧ c'.tabId = c.tabId := by
    intro state tabId connId c' hget'
    rcases hreg : regLookup state.registry tabId with _ | cid
    · have hred : closeTab state tabId = state := by
        unfold closeTab
        simp only [hreg]
      rw [hred] at hget'
      exact ⟨c', hget', rfl⟩
    · have hred : closeTab state tabId =
          emitClosed { conns := state.conns, registry := regErase state.registry tabId,
                       closedEvents := state.closedEvents } cid := by
        unfold closeTab
        simp only [hreg]
      rw [hred] at hget'
      exact hemit_conns
        { conns := state.conns, registry := regErase state.registry tabId,
          closedEvents := state.closedEvents } cid connId c' hget'
  refine ⟨?_, ?_, hclosed_guard, ?_⟩
  · intro state tabId
    rcases hreg_after state tabId with hnone | heq
    · generalize hgen : closeTab state tabId = s1 at hnone ⊢
      conv_lhs => unfold closeTab
      rw [hnone]
    · rw [heq]
      exact heq
  · intro state tabId connId c hreg hget hc
    unfold closeTab
    rw [hreg]
    unfold emitClosed
    simp only
    rw [show getConn state.conns connId = some c from hget]
    simp [hc]
  · intro state tabId connId c hreg hget htab
    have hregafter : regLookup (closeTab state tabId).registry tabId = none := by
      rcases hreg_after state tabId with hnone | heq
      · exact hnone
      · exfalso
        unfold closeTab at heq
        rw [hreg] at heq
        have hregeq := congrArg CloseServiceState.registry heq
        rw [emitClosed_registry] at hregeq
        simp only at hregeq
        have := regLookup_regErase_self state.registry tabId
        rw [hregeq] at this
        rw [hreg] at this
        exact Option.noConfusion this
    generalize hgen : closeTab state tabId = s1 at hregafter ⊢
    rcases hget' : getConn s1.conns connId with _ | c'
    · unfold onTransportClose
      simp only [hget']
    · have htab' : c'.tabId = tabId := by
        obtain ⟨c2, hg2, ht2⟩ := hconns_after state tabId connId c' (by rw [hgen]; exact hget')
        rw [hget] at hg2
        injection hg2 with h2
        rw [ht2, ← h2]
        exact htab
      unfold onTransportClose
      simp only [hget']
      rw [if_neg (by rw [htab', hregafter]; exact fun h => Option.noConfusion h)]

/-- Claim C4 witness: a single registered open connection — closing the tab
emits the one `status=closed` event, and a subsequent transport close for the
same connection changes nothing. -/
theorem C4_close_idempotent_single_emission_witness :
    (closeTab
        { conns := [{ connId := 7, tabId := "tab-1", closed := false }],
          registry := [("tab-1", 7)], closedEvents := [] } "tab-1").closedEvents =
      [("tab-1", 7)] ∧
    onTransportClose
        (closeTab
          { conns := [{ connId := 7, tabId := "tab-1", closed := false }],
            registry := [("tab-1", 7)], closedEvents := [] } "tab-1") 7 =
      closeTab
        { conns := [{ connId := 7, tabId := "tab-1", closed := false }],
          registry := [("tab-1", 7)], closedEvents := [] } "tab-1" := by
  constructor
  · have h := C4_close_idempotent_single_emission.2.1
      { conns := [{ connId := 7, tabId := "tab-1", closed := false }],
        registry := [("tab-1", 7)], closedEvents := [] } "tab-1" 7
      { connId := 7, tabId := "tab-1", closed := false } (by decide) (by decide) rfl
    rw [h]
    rfl
  · exact C4_close_idempotent_single_emission.2.2.2
      { conns := [{ connId := 7, tabId := "tab-1", closed := false }],
        registry := [("tab-1", 7)], closedEvents := [] } "tab-1" 7
      { connId := 7, tabId := "tab-1", closed := false } (by decide) (by decide) rfl

/-! ## Transfer registries and cancellation (`cancelUpload` / `cancelDownload`)

`normalizeTransferId` falls back to a generated identifier built from
`Date.now()` and a slice of `Math.random().toString(16)`; those environment
values are the explicit `nowMs` / `randomHex` parameters. Stream destruction
with the sentinel `TransferCanceledError` is observable through the
`destroyedStreamCount` counter (one per destroyed stream handle). -/

/-- An entry of `activeUploadTransfers` / `activeDownloadTransfers`. The
`hasReadStream` / `hasWriteStream` flags model whether the optional stream
handles have been attached yet (`destroyStream` is a no-op on `undefined`). -/
structure ActiveTransferEntry where
  tabId : String
  transferId : String
  remotePath : String := ""
  localPath : String := ""
  canceled : Bool
  hasReadStream : Bool
  hasWriteStream : Bool
deriving DecidableEq, Repr

/-- The `TerminalService` state relevant to transfer cancellation. -/
structure TransferRegistries where
  activeUploadTransfers : List (String × ActiveTransferEntry)
  activeDownloadTransfers : List (String × ActiveTransferEntry)
  destroyedStreamCount : Nat
deriving DecidableEq, Repr

/-- Models `toTransferKey`. -/
def toTransferKey (tabId transferId : String) : String :=
  tabId ++ ":" ++ transferId

/-- Models `normalizeTransferId`: the trimmed id when non-blank, otherwise
the generated `tx-<timestamp>-<hex>` identifier. -/
def normalizeTransferId (transferId : String) (nowMs : Nat) (randomHex : String) : String :=
  let trimmed := jsTrim transferId
  if trimmed ≠ "" then trimmed
  else "tx-" ++ toString nowMs ++ "-" ++ randomHex

/-- Map lookup in a transfer registry. -/
def lookupTransfer : List (String × ActiveTransferEntry) → String → Option ActiveTransferEntry
  | [], _ => none
  | e :: rest, key => if e.1 == key then some e.2 else lookupTransfer rest key

/-- Replaces the entry stored under `key` (models mutating the entry object
shared between the map and the running pipeline). -/
def storeTransfer (entries : List (String × ActiveTransferEntry)) (key : String)
    (entry : ActiveTransferEntry) : List (String × ActiveTransferEntry) :=
  entries.map (fun e => if e.1 == key then (key, entry) else e)

/-- Number of stream handles `destroyStream` destroys for an entry. -/
def destroyCountFor (entry : ActiveTransferEntry) : Nat :=
  (if entry.hasReadStream then 1 else 0) + (if entry.hasWriteStream then 1 else 0)

/-- The shared body of `cancelUpload` / `cancelDownload` over one registry:
`false` when no active job is registered under the normalized key; `true`
with no side effect when the job is already canceled; otherwise the canceled
flag is set and the attached streams are destroyed with the sentinel error. -/
def cancelInRegistry (entries : List (String × ActiveTransferEntry)) (destroyed : Nat)
    (tabId transferId : String) (nowMs : Nat) (randomHex : String) :
    Bool × List (String × ActiveTransferEntry) × Nat :=
  let safeTransferId := normalizeTransferId transferId nowMs randomHex
  let key := toTransferKey tabId safeTransferId
  match lookupTransfer entries key with
  | none => (false, entries, destroyed)
  | some transfer =>
    if transfer.canceled then (true, entries, destroyed)
    else
      (true, storeTransfer entries key { transfer with canceled := true },
        destroyed + destroyCountFor transfer)

/-- Models `TerminalService.cancelUpload`. -/
def cancelUpload (s : TransferRegistries) (tabId transferId : String) (nowMs : Nat)
    (randomHex : String) : Bool × TransferRegistries :=
  match cancelInRegistry s.activeUploadTransfers s.destroyedStreamCount tabId transferId
      nowMs randomHex with
  | (result, entries, destroyed) =>
    (result, { s with activeUploadTransfers := entries, destroyedStreamCount := destroyed })

/-- Models `TerminalService.cancelDownload`. -/
def cancelDownload (s : TransferRegistries) (tabId transferId : String) (nowMs : Nat)
    (randomHex : String) : Bool × TransferRegistries :=
  match cancelInRegistry s.activeDownloadTransfers s.destroyedStreamCount tabId transferId
      nowMs randomHex with
  | (result, entries, destroyed) =>
    (result, { s with activeDownloadTransfers := entries, destroyedStreamCount := destroyed })

/-- Models the registration step of `uploadFile`: the transfer id is
normalized, a duplicate active key is rejected before anything is stored, and
otherwise a fresh not-yet-canceled entry is stored under the key. -/
def registerUploadTransfer (s : TransferRegistries) (tabId transferId : String)
    (nowMs : Nat) (randomHex : String) (remotePath : String) :
    Except String TransferRegistries :=
  let safeTransferId := normalizeTransferId transferId nowMs randomHex
  let key := toTransferKey tabId safeTransferId
  if (lookupTransfer s.activeUploadTransfers key).isSome then
    Except.error "Upload transfer is already running."
  else
    Except.ok
      { s with
        activeUploadTransfers := s.activeUploadTransfers ++
          [(key, { tabId := tabId, transferId := safeTransferId, remotePath := remotePath,
                   canceled := false, hasReadStream := false, hasWriteStream := false })] }

lemma lookupTransfer_storeTransfer_self (entries : List (String × ActiveTransferEntry))
    (key : String) (entry : ActiveTransferEntry) :
    lookupTransfer (storeTransfer entries key entry) key =
      (lookupTransfer entries key).map (fun _ => entry) := by
  induction entries with
  | nil => rfl
  | cons head tail ih =>
    by_cases hk : (head.1 == key) = true
    · simp [storeTransfer, lookupTransfer, hk]
    · simpa [storeTransfer, lookupTransfer, hk] using ih

lemma cancelInRegistry_lookup_none (entries : List (String × ActiveTransferEntry))
    (destroyed : Nat) (tabId transferId : String) (nowMs : Nat) (randomHex : String)
    (h : lookupTransfer entries
      (toTransferKey tabId (normalizeTransferId transferId nowMs randomHex)) = none) :
    cancelInRegistry entries destroyed tabId transferId nowMs randomHex =
      (false, entries, destroyed) := by
  simp only [cancelInRegistry]
  simp only [h]

/-- Claim C5: `cancelUpload` and `cancelDownload` return whether an active
job is registered under the normalized `(tabId, transferId)` key (in
particular `false` when none is), and they are idempotent — when a call
returns `true`, a second call for the same still-registered transfer returns
`true` and leaves the state untouched, so the streams are destroyed with the
sentinel cancellation error at most once. -/
theorem C5_cancel_idempotent :
    (∀ (s : TransferRegistries) (tabId transferId : String) (nowMs : Nat) (randomHex : String),
      (cancelUpload s tabId transferId nowMs randomHex).1 =
        (lookupTransfer s.activeUploadTransfers
          (toTransferKey tabId (normalizeTransferId transferId nowMs randomHex))).isSome) ∧
    (∀ (s : TransferRegistries) (tabId transferId : String) (nowMs : Nat) (randomHex : String),
      (cancelDownload s tabId transferId nowMs randomHex).1 =
        (lookupTransfer s.activeDownloadTransfers
          (toTransferKey tabId (normalizeTransferId transferId nowMs randomHex))).isSome) ∧
    (∀ (s s1 : TransferRegistries) (tabId transferId : String)
        (nowMs nowMs' : Nat) (randomHex randomHex' : String),
      jsTrim transferId ≠ "" →
        cancelUpload s tabId transferId nowMs randomHex = (true, s1) →
          cancelUpload s1 tabId transferId nowMs' randomHex' = (true, s1)) ∧
    (∀ (s s1 : TransferRegistries) (tabId transferId : String)
        (nowMs nowMs' : Nat) (randomHex randomHex' : String),
      jsTrim transferId ≠ "" →
        cancelDownload s tabId transferId nowMs randomHex = (true, s1) →
          cancelDownload s1 tabId transferId nowMs' randomHex' = (true, s1)) := by
  have hnorm : ∀ (transferId : String) (nowMs nowMs' : Nat) (randomHex randomHex' : String),
      jsTrim transferId ≠ "" →
        normalizeTransferId transferId nowMs randomHex =
          normalizeTransferId transferId nowMs' randomHex' := by
    intro transferId nowMs nowMs' randomHex randomHex' h
    unfold normalizeTransferId
    rw [if_pos h, if_pos h]
  have hfst : ∀ (entries : List (String × ActiveTransferEntry)) (destroyed : Nat)
      (tabId transferId : String) (nowMs : Nat) (randomHex : String),
      (cancelInRegistry entries destroyed tabId transferId nowMs randomHex).1 =
        (lookupTransfer entries
          (toTransferKey tabId (normalizeTransferId transferId nowMs randomHex))).isSome := by
    intro entries destroyed tabId transferId nowMs randomHex
    simp only [cancelInRegistry]
    rcases h : lookupTransfer entries
        (toTransferKey tabId (normalizeTransferId transferId nowMs randomHex)) with _ | tr
    · simp only [h]
      rfl
    · simp only [h]
      by_cases hc : tr.canceled <;> simp [hc]
  have hsecond : ∀ (entries : List (String × ActiveTransferEntry)) (destroyed : Nat)
      (tabId transferId : String) (nowMs nowMs' : Nat) (randomHex randomHex' : String)
      (entries1 : List (String × ActiveTransferEntry)) (destroyed1 : Nat),
      jsTrim transferId ≠ "" →
        cancelInRegistry entries destroyed tabId transferId nowMs randomHex =
          (true, entries1, destroyed1) →
          cancelInRegistry entries1 destroyed1 tabId transferId nowMs' randomHex' =
            (true, entries1, destroyed1) := by
    intro entries destroyed tabId transferId nowMs nowMs' randomHex randomHex' entries1
      destroyed1 htrim hfirst
    have hkey : toTransferKey tabId (normalizeTransferId transferId nowMs' randomHex') =
        toTransferKey tabId (normalizeTransferId transferId nowMs randomHex) := by
      rw [hnorm transferId nowMs' nowMs randomHex' randomHex htrim]
    simp only [cancelInRegistry] at hfirst ⊢
    rw [hkey]
    rcases h : lookupTransfer entries
        (toTransferKey tabId (normalizeTransferId transferId nowMs randomHex)) with _ | tr
    · simp only [h] at hfirst
      simp at hfirst
    · simp only [h] at hfirst
      by_cases hc : tr.canceled = true
      · rw [if_pos hc] at hfirst
        obtain ⟨he, hd⟩ : entries = entries1 ∧ destroyed = destroyed1 := by
          constructor
          · exact congrArg (fun p => p.2.1) hfirst
          · exact congrArg (fun p => p.2.2) hfirst
        subst he
        subst hd
        simp only [h]
        rw [if_pos hc]
      · rw [if_neg hc] at hfirst
        obtain ⟨he, hd⟩ :
            storeTransfer entries
                (toTransferKey tabId (normalizeTransferId transferId nowMs randomHex))
                { tr with canceled := true } = entries1 ∧
              destroyed + destroyCountFor tr = destroyed1 := by
          constructor
          · exact congrArg (fun p => p.2.1) hfirst
          · exact congrArg (fun p => p.2.2) hfirst
        subst he
        subst hd
        rw [lookupTransfer_storeTransfer_self, h]
        simp
  refine ⟨?_, ?_, ?_, ?_⟩
  · intro s tabId transferId nowMs randomHex
    unfold cancelUpload
    rcases hc : cancelInRegistry s.activeUploadTransfers s.destroyedStreamCount tabId
        transferId nowMs randomHex with ⟨result, entries, destroyed⟩
    have := hfst s.activeUploadTransfers s.destroyedStreamCount tabId transferId nowMs randomHex
    rw [hc] at this
    exact this
  · intro s tabId transferId nowMs randomHex
    unfold cancelDownload
    rcases hc : cancelInRegistry s.activeDownloadTransfers s.destroyedStreamCount tabId
        transferId nowMs randomHex with ⟨result, entries, destroyed⟩
    have := hfst s.activeDownloadTransfers s.destroyedStreamCount tabId transferId nowMs randomHex
    rw [hc] at this
    exact this
  · intro s s1 tabId transferId nowMs nowMs' randomHex randomHex' htrim hfirst
    unfold cancelUpload at hfirst ⊢
    rcases hc : cancelInRegistry s.activeUploadTransfers s.destroyedStreamCount tabId
        transferId nowMs randomHex with ⟨result, entries, destroyed⟩
    rw [hc] at hfirst
    simp only [Prod.mk.injEq] at hfirst
    obtain ⟨hres, hstate⟩ := hfirst
    subst hres
    have hsec := hsecond s.activeUploadTransfers s.destroyedStreamCount tabId transferId
      nowMs nowMs' randomHex randomHex' entries destroyed htrim hc
    rw [← hstate]
    simp only
    rw [hsec]
  · intro s s1 tabId transferId nowMs nowMs' randomHex randomHex' htrim hfirst
    unfold cancelDownload at hfirst ⊢
    rcases hc : cancelInRegistry s.activeDownloadTransfers s.destroyedStreamCount tabId
        transferId nowMs randomHex with ⟨result, entries, destroyed⟩
    rw [hc] at hfirst
    simp only [Prod.mk.injEq] at hfirst
    obtain ⟨hres, hstate⟩ := hfirst
    subst hres
    have hsec := hsecond s.activeDownloadTransfers s.destroyedStreamCount tabId transferId
      nowMs nowMs' randomHex randomHex' entries destroyed htrim hc
    rw [← hstate]
    simp only
    rw [hsec]

/-- A registry holding one active upload with both streams attached. -/
def cancelDemoState : TransferRegistries :=
  { activeUploadTransfers :=
      [("tab-1:up-1",
        { tabId := "tab-1", transferId := "up-1", remotePath := "/srv/a.bin", localPath := "",
          canceled := false, hasReadStream := true, hasWriteStream := true })],
    activeDownloadTransfers := [], destroyedStreamCount := 0 }

/-- The state `cancelDemoState` reaches after one successful cancel: the
entry is flagged canceled and both streams were destroyed. -/
def cancelDemoStateAfter : TransferRegistries :=
  { activeUploadTransfers :=
      [("tab-1:up-1",
        { tabId := "tab-1", transferId := "up-1", remotePath := "/srv/a.bin", localPath := "",
          canceled := true, hasReadStream := true, hasWriteStream := true })],
    activeDownloadTransfers := [], destroyedStreamCount := 2 }

/-- Claim C5 witness: the idempotence conjunct applied to a concrete
registry — the second cancel of the same still-registered transfer returns
`true` and changes nothing. -/
theorem C5_cancel_idempotent_witness :
    cancelUpload cancelDemoStateAfter "tab-1" "up-1" 1 "ffffff" = (true, cancelDemoStateAfter) :=
  C5_cancel_idempotent.2.2.1 cancelDemoState cancelDemoStateAfter "tab-1" "up-1" 0 1
    "eeeeee" "ffffff" (by decide) (by decide)

lemma generated_transfer_id_ne_empty (a b : String) : ("tx-" ++ a ++ "-" ++ b) ≠ "" := by
  intro h
  have hlen := congrArg String.length h
  simp [String.length_append] at hlen
  exact absurd hlen.1.1.1 (by decide)

/-- Claim C10: transfer ids are trimmed; a blank (empty or whitespace-only)
id is replaced by the generated `tx-<timestamp>-<hex>` identifier, which is
never empty; hence `uploadFile` only registers entries with a non-empty
transferId; and a cancel call with a blank transferId targets the freshly
generated key, so it returns `false` whenever that fresh key is unused — it
never cancels the caller's original job. -/
theorem C10_transfer_id_normalization :
    (∀ (transferId : String) (nowMs : Nat) (randomHex : String),
      jsTrim transferId ≠ "" →
        normalizeTransferId transferId nowMs randomHex = jsTrim transferId) ∧
    (∀ (transferId : String) (nowMs : Nat) (randomHex : String),
      jsTrim transferId = "" →
        normalizeTransferId transferId nowMs randomHex =
          "tx-" ++ toString nowMs ++ "-" ++ randomHex) ∧
    (∀ (transferId : String) (nowMs : Nat) (randomHex : String),
      normalizeTransferId transferId nowMs randomHex ≠ "") ∧
    (∀ (s s' : TransferRegistries) (tabId transferId : String) (nowMs : Nat)
        (randomHex remotePath : String),
      registerUploadTransfer s tabId transferId nowMs randomHex remotePath = Except.ok s' →
        ∀ key entry, (key, entry) ∈ s'.activeUploadTransfers →
          (key, entry) ∈ s.activeUploadTransfers ∨ entry.transferId ≠ "") ∧
    (∀ (s : TransferRegistries) (tabId transferId : String) (nowMs : Nat) (randomHex : String),
      jsTrim transferId = "" →
        lookupTransfer s.activeUploadTransfers
          (toTransferKey tabId ("tx-" ++ toString nowMs ++ "-" ++ randomHex)) = none →
          (cancelUpload s tabId transferId nowMs randomHex).1 = false) := by
  have htrimmed : ∀ (transferId : String) (nowMs : Nat) (randomHex : String),
      jsTrim transferId ≠ "" →
        normalizeTransferId transferId nowMs randomHex = jsTrim transferId := by
    intro transferId nowMs randomHex h
    unfold normalizeTransferId
    rw [if_pos h]
  have hblank : ∀ (transferId : String) (nowMs : Nat) (randomHex : String),
      jsTrim transferId = "" →
        normalizeTransferId transferId nowMs randomHex =
          "tx-" ++ toString nowMs ++ "-" ++ randomHex := by
    intro transferId nowMs randomHex h
    unfold normalizeTransferId
    rw [if_neg (by simp [h])]
  have hne : ∀ (transferId : String) (nowMs : Nat) (randomHex : String),
      normalizeTransferId transferId nowMs randomHex ≠ "" := by
    intro transferId nowMs randomHex
    by_cases h : jsTrim transferId = ""
    · rw [hblank transferId nowMs randomHex h]
      exact generated_transfer_id_ne_empty _ _
    · rw [htrimmed transferId nowMs randomHex h]
      exact h
  refine ⟨htrimmed, hblank, hne, ?_, ?_⟩
  · intro s s' tabId transferId nowMs randomHex remotePath hok key entry hmem
    simp only [registerUploadTransfer] at hok
    split at hok
    · exact absurd hok (by simp)
    · injection hok with hok'
      rw [← hok'] at hmem
      simp only at hmem
      rcases List.mem_append.mp hmem with hold | hnew
      · exact Or.inl hold
      · right
        have := List.mem_singleton.mp hnew
        injection this with hk he
        rw [he]
        simp only
        exact hne transferId nowMs randomHex
  · intro s tabId transferId nowMs randomHex htrim hlook
    unfold cancelUpload
    rcases hc : cancelInRegistry s.activeUploadTransfers s.destroyedStreamCount tabId
        transferId nowMs randomHex with ⟨result, entries, destroyed⟩
    have hnone : lookupTransfer s.activeUploadTransfers
        (toTransferKey tabId (normalizeTransferId transferId nowMs randomHex)) = none := by
      rw [hblank transferId nowMs randomHex htrim]
      exact hlook
    have := cancelInRegistry_lookup_none s.activeUploadTransfers s.destroyedStreamCount
      tabId transferId nowMs randomHex hnone
    rw [hc] at this
    injection this with hres hrest

/-- Claim C10 witness: a whitespace-only transferId is replaced by the
generated identifier, and cancelling with it against an empty registry
returns `false`. -/
theorem C10_transfer_id_normalization_witness :
    normalizeTransferId "   " 1700000000000 "a1b2c3" = "tx-1700000000000-a1b2c3" ∧
    (cancelUpload
        { activeUploadTransfers := [], activeDownloadTransfers := [],
          destroyedStreamCount := 0 } "tab-1" "   " 1700000000000 "a1b2c3").1 = false :=
  ⟨C10_transfer_id_normalization.2.1 "   " 1700000000000 "a1b2c3" (by decide),
    C10_transfer_id_normalization.2.2.2.2
      { activeUploadTransfers := [], activeDownloadTransfers := [],
        destroyedStreamCount := 0 } "tab-1" "   " 1700000000000 "a1b2c3" (by decide) rfl⟩

/-! ## Remote path handling (`normalizeRemotePath`, `posixPath`, name checks)

`renamePath` and `createDirectory` rely on Node's `path.posix.join` and
`path.posix.dirname`; both are embedded below following Node's
implementation (`normalizeString` segment resolution for `normalize`, and
the backwards slash scan for `dirname`). -/

/-- Splits a character list at every slash (`String.prototype.split("/")`). -/
def splitSlash : List Char → List (List Char)
  | [] => [[]]
  | c :: rest =>
    if c = '/' then [] :: splitSlash rest
    else
      match splitSlash rest with
      | [] => [[c]]
      | seg :: segs => (c :: seg) :: segs

/-- Node's `normalizeString` segment resolution, with the resolved segments
accumulated in reverse order: empty and `.` segments are dropped; `..` pops
the previous segment unless that segment is itself `..`, in which case (and
when nothing is left to pop) a `..` is kept only for relative paths
(`allowAboveRoot`). -/
def resolveSegsRev (allowAboveRoot : Bool) : List (List Char) → List (List Char) →
    List (List Char)
  | acc, [] => acc
  | acc, seg :: rest =>
    if seg = [] ∨ seg = ['.'] then resolveSegsRev allowAboveRoot acc rest
    else if seg = ['.', '.'] then
      match acc with
      | [] =>
        if allowAboveRoot then resolveSegsRev allowAboveRoot [['.', '.']] rest
        else resolveSegsRev allowAboveRoot [] rest
      | top :: acc' =>
        if top = ['.', '.'] then
          (if allowAboveRoot then resolveSegsRev allowAboveRoot (seg :: acc) rest
           else resolveSegsRev allowAboveRoot acc rest)
        else resolveSegsRev allowAboveRoot acc' rest
    else resolveSegsRev allowAboveRoot (seg :: acc) rest

/-- Joins segments with slashes (inverse of `splitSlash` on clean input). -/
def joinSlash : List (List Char) → List Char
  | [] => []
  | [seg] => seg
  | seg :: rest => seg ++ '/' :: joinSlash rest

/-- Models `path.posix.normalize`. -/
def posixNormalize (path : String) : String :=
  if path = "" then "."
  else
    let cs := path.data
    let isAbsolute := cs.head? = some '/'
    let trailingSeparator := cs.getLast? = some '/'
    let segs := (resolveSegsRev (!isAbsolute) [] (splitSlash cs)).reverse
    let core := joinSlash segs
    if core = [] then
      if isAbsolute then "/" else if trailingSeparator then "./" else "."
    else
      let core2 := if trailingSeparator then core ++ ['/'] else core
      if isAbsolute then ⟨'/' :: core2⟩ else ⟨core2⟩

/-- Models `path.posix.join(a, b)` for the two-argument calls of the
service: empty arguments are skipped, the remainder is joined with a slash
and normalized. -/
def posixJoin (a b : String) : String :=
  if a = "" ∧ b = "" then "."
  else if a = "" then posixNormalize b
  else if b = "" then posixNormalize a
  else posixNormalize (a ++ "/" ++ b)

/-- The backwards scan of Node's `path.posix.dirname`: starting at index
`i` (and never looking at index 0), skip trailing slashes, then the last
segment, and report the index of the separating slash. -/
def findDirEnd (cs : List Char) : Nat → Bool → Option Nat
  | 0, _ => none
  | i + 1, matchedSlash =>
    if cs.get? (i + 1) = some '/' then
      if matchedSlash then findDirEnd cs i true else some (i + 1)
    else findDirEnd cs i false

/-- Models `path.posix.dirname`. -/
def posixDirname (path : String) : String :=
  if path = "" then "."
  else
    let cs := path.data
    let hasRoot := cs.head? = some '/'
    match findDirEnd cs (cs.length - 1) true with
    | none => if hasRoot then "/" else "."
    | some e => if hasRoot ∧ e = 1 then "//" else ⟨cs.take e⟩

/-- Models `normalizeRemotePath`: `targetPath?.trim()`, with a blank or
absent path replaced by `"."`. -/
def normalizeRemotePath (targetPath : Option String) : String :=
  match targetPath with
  | none => "."
  | some p =>
    let trimmed := jsTrim p
    if trimmed = "" then "." else trimmed

/-- Models `normalizeEntryName`: the trimmed name must be non-empty, must
not be `.` or `..`, and must not contain a slash. -/
def normalizeEntryName (name label : String) : Except String String :=
  let trimmed := jsTrim name
  if trimmed.length = 0 then Except.error (label ++ " is required.")
  else if trimmed = "." ∨ trimmed = ".." then
    Except.error (label ++ " cannot be \".\" or \"..\".")
  else if trimmed.data.contains '/' then Except.error (label ++ " cannot contain \"/\".")
  else Except.ok trimmed

/-- The observable outcome of `renamePath` after the remote channel is
available: a thrown root rejection, a thrown name-validation error, a no-op
return (no remote rename issued), or the remote `rename(src, target)`
call. -/
inductive RenameOutcome where
  | rootRejected
  | nameRejected (message : String)
  | noRemoteRename
  | remoteRename (sourcePath targetPath : String)
deriving DecidableEq, Repr

/-- Models `TerminalService.renamePath` (the pure decision after the SFTP
channel is acquired): normalize the source, reject the root, validate the
new name, compute `join(dirname(source), safeName)` and skip the remote
rename when the target equals the source. -/
def renamePath (sourcePath nextName : String) : RenameOutcome :=
  let normalizedSourcePath := normalizeRemotePath (some sourcePath)
  if normalizedSourcePath = "/" then RenameOutcome.rootRejected
  else
    match normalizeEntryName nextName "New name" with
    | Except.error e => RenameOutcome.nameRejected e
    | Except.ok safeName =>
      let parentPath := posixDirname normalizedSourcePath
      let targetPath := posixJoin parentPath safeName
      if targetPath = normalizedSourcePath then RenameOutcome.noRemoteRename
      else RenameOutcome.remoteRename normalizedSourcePath targetPath

/-- Models `TerminalService.createDirectory` (the pure decision after the
SFTP channel is acquired): `Except.ok target` means the remote `mkdir` is
issued with that path; an error is thrown before any remote operation. -/
def createDirectory (parentPath name : String) : Except String String :=
  match normalizeEntryName name "Directory name" with
  | Except.error e => Except.error e
  | Except.ok safeName =>
    Except.ok (posixJoin (normalizeRemotePath (some parentPath)) safeName)

/-- Claim C8: `renamePath` rejects a root source before any remote rename;
it is a no-op when the computed target equals the normalized source; and a
remote rename is only ever issued with a non-root source and a target
different from it. -/
theorem C8_rename_root_rejected_and_noop :
    (∀ sourcePath nextName : String,
      normalizeRemotePath (some sourcePath) = "/" →
        renamePath sourcePath nextName = RenameOutcome.rootRejected) ∧
    (∀ sourcePath nextName safeName : String,
      normalizeRemotePath (some sourcePath) ≠ "/" →
        normalizeEntryName nextName "New name" = Except.ok safeName →
          posixJoin (posixDirname (normalizeRemotePath (some sourcePath))) safeName =
            normalizeRemotePath (some sourcePath) →
            renamePath sourcePath nextName = RenameOutcome.noRemoteRename) ∧
    (∀ sourcePath nextName src tgt : String,
      renamePath sourcePath nextName = RenameOutcome.remoteRename src tgt →
        src ≠ "/" ∧ tgt ≠ src) := by
  refine ⟨?_, ?_, ?_⟩
  · intro sourcePath nextName h
    unfold renamePath
    rw [if_pos h]
  · intro sourcePath nextName safeName hroot hname htarget
    unfold renamePath
    rw [if_neg hroot]
    simp only [hname]
    rw [if_pos htarget]
  · intro sourcePath nextName src tgt h
    simp only [renamePath] at h
    by_cases hroot : normalizeRemotePath (some sourcePath) = "/"
    · rw [if_pos hroot] at h
      exact absurd h (by simp)
    · rw [if_neg hroot] at h
      rcases hname : normalizeEntryName nextName "New name" with e | safeName
      · simp only [hname] at h
        exact absurd h (by simp)
      · simp only [hname] at h
        by_cases htgt : posixJoin (posixDirname (normalizeRemotePath (some sourcePath)))
            safeName = normalizeRemotePath (some sourcePath)
        · rw [if_pos htgt] at h
          exact absurd h (by simp)
        · rw [if_neg htgt] at h
          injection h with h1 h2
          constructor
          · rw [← h1]
            exact hroot
          · rw [← h1, ← h2]
            exact htgt

/-- Claim C8 witness: `renamePath("/", "x")` is rejected as a root
operation, and renaming `/home/user/notes.txt` to its own current name is a
no-op. -/
theorem C8_rename_root_rejected_and_noop_witness :
    renamePath "/" "x" = RenameOutcome.rootRejected ∧
    renamePath "/home/user/notes.txt" "notes.txt" = RenameOutcome.noRemoteRename :=
  ⟨C8_rename_root_rejected_and_noop.1 "/" "x" (by decide),
    C8_rename_root_rejected_and_noop.2.1 "/home/user/notes.txt" "notes.txt" "notes.txt"
      (by decide) rfl (by decide)⟩

/-- The illegal-name condition of the claim: blank after trimming, `.`,
`..`, or containing the path separator. -/
def isIllegalEntryName (name : String) : Bool :=
  decide (jsTrim name = "") || decide (jsTrim name = ".") || decide (jsTrim name = "..") ||
    (jsTrim name).data.contains '/'

lemma string_length_zero_iff (s : String) : s.length = 0 ↔ s = "" := by
  constructor
  · intro h
    cases s with
    | mk data =>
      cases data with
      | nil => rfl
      | cons c cs => simp [String.length] at h
  · intro h
    rw [h]
    rfl

lemma normalizeEntryName_classify (name label : String) :
    (isIllegalEntryName name = true ∧ ∃ e, normalizeEntryName name label = Except.error e) ∨
    (isIllegalEntryName name = false ∧
      normalizeEntryName name label = Except.ok (jsTrim name)) := by
  by_cases h1 : jsTrim name = ""
  · left
    refine ⟨by simp [isIllegalEntryName, h1], label ++ " is required.", ?_⟩
    unfold normalizeEntryName
    rw [if_pos ((string_length_zero_iff (jsTrim name)).mpr h1)]
  · have hlen : ¬((jsTrim name).length = 0) := fun h => h1 ((string_length_zero_iff _).mp h)
    by_cases h2 : jsTrim name = "." ∨ jsTrim name = ".."
    · left
      refine ⟨?_, label ++ " cannot be \".\" or \"..\".", ?_⟩
      · rcases h2 with h2 | h2 <;> simp [isIllegalEntryName, h2]
      · unfold normalizeEntryName
        rw [if_neg hlen, if_pos h2]
    · by_cases h3 : (jsTrim name).data.contains '/' = true
      · left
        have h3' : '/' ∈ (jsTrim name).data := by simpa using h3
        refine ⟨by simp [isIllegalEntryName, h3'], label ++ " cannot contain \"/\".", ?_⟩
        unfold normalizeEntryName
        rw [if_neg hlen, if_neg h2, if_pos h3]
      · right
        constructor
        · simp only [isIllegalEntryName, Bool.or_eq_false_iff, decide_eq_false_iff_not]
          push_neg at h2
          exact ⟨⟨⟨h1, h2.1⟩, h2.2⟩, by simpa using h3⟩
        · unfold normalizeEntryName
          rw [if_neg hlen, if_neg h2, if_neg h3]

/-- Claim C9: `createDirectory` issues its remote `mkdir` exactly when the
entry name is legal — a name that is blank after trimming, `.`, `..`, or
contains a slash is rejected with a validation error before any remote
operation — and `renamePath` likewise performs no remote operation for an
illegal name. -/
theorem C9_entry_name_validation :
    (∀ parentPath name : String,
      (createDirectory parentPath name).isOk = false ↔ isIllegalEntryName name = true) ∧
    (∀ sourcePath nextName : String,
      isIllegalEntryName nextName = true →
        renamePath sourcePath nextName = RenameOutcome.rootRejected ∨
          ∃ e, renamePath sourcePath nextName = RenameOutcome.nameRejected e) := by
  constructor
  · intro parentPath name
    rcases normalizeEntryName_classify name "Directory name" with ⟨hbad, e, herr⟩ | ⟨hok, hname⟩
    · unfold createDirectory
      rw [herr, hbad]
      simp [Except.isOk, Except.toBool]
    · unfold createDirectory
      rw [hname, hok]
      simp [Except.isOk, Except.toBool]
  · intro sourcePath nextName hbad
    by_cases hroot : normalizeRemotePath (some sourcePath) = "/"
    · left
      unfold renamePath
      rw [if_pos hroot]
    · right
      rcases normalizeEntryName_classify nextName "New name" with ⟨_, e, herr⟩ | ⟨hok, _⟩
      · refine ⟨e, ?_⟩
        simp only [renamePath]
        rw [if_neg hroot]
        simp only [herr]
      · rw [hok] at hbad
        exact absurd hbad (by simp)

/-- Claim C9 witness: the name `"a/b"` is illegal, so `createDirectory`
rejects it before any remote operation; the legal name `"docs"` is
accepted. -/
theorem C9_entry_name_validation_witness :
    (createDirectory "/home" "a/b").isOk = false ∧
    ¬((createDirectory "/home" "docs").isOk = false) :=
  ⟨(C9_entry_name_validation.1 "/home" "a/b").mpr (by decide),
    fun h => by
      have := (C9_entry_name_validation.1 "/home" "docs").mp h
      exact absurd this (by decide)⟩

end TermDock
